import Mathlib

/-!
A shallow embedding of the HTTP server endpoint in
`src/Aria2c/aria2-1.15.1/src/HttpServer.cc` (namespace aria2, class
HttpServer), together with proofs about its request/response behaviour.

Byte strings are modelled as `List Char`, one `Char` per byte (all inputs of
interest are ASCII).  Helper routines that live outside the given source file
(`util.cc`, `base64.cc`, `HttpHeaderProcessor.cc`, `HttpHeader.cc`,
`HttpServer.h`) are modelled from the specification and marked as such in
their doc comments.  Everything else follows `HttpServer.cc` line by line.
-/

set_option autoImplicit false

namespace Aria2

/-! ### Character and token utilities -/

/-- Linear white space recognised when trimming header tokens. -/
def isLws (c : Char) : Bool := c == ' ' || c == '\t'

/-- Trim linear white space from both ends of a byte string. -/
def trimLws (l : List Char) : List Char :=
  ((l.dropWhile isLws).reverse.dropWhile isLws).reverse

/-- Modelled from the spec: `util::strieq` is not under `src/`; the spec
(section 3) asks for case-insensitive comparison of header tokens. -/
def strieq (a b : List Char) : Bool :=
  a.map Char.toLower == b.map Char.toLower

/-- Modelled from the spec: `util::splitIter` with `doStrip = true` is not
under `src/`; the spec (section 3) describes the comma-separated token list
of a header value, each token trimmed, empty tokens dropped. -/
def splitIter (l : List Char) (delim : Char) : List (List Char) :=
  ((List.splitOn delim l).map trimLws).filter (fun t => !t.isEmpty)

/-- Modelled from the spec: `util::strifind` is not under `src/`; the spec
(section 4.3) states the keep-alive decision in terms of membership of a
token in the Connection header token list, case-insensitively. -/
def containsTokenCI (value tok : List Char) : Bool :=
  (splitIter value ',').any (fun t => strieq t tok)

/-- Modelled from the spec: splits a byte string at the first occurrence of
the delimiter, as `util::divide` (not under `src/`) is used by
`HttpServer::authenticate`; when the delimiter is absent the second
component is empty. -/
def divide (delim : Char) : List Char → List Char × List Char
  | [] => ([], [])
  | c :: rest =>
    if c = delim then ([], rest)
    else
      let p := divide delim rest
      (c :: p.1, p.2)

/-- Value of a decimal digit string, `none` when empty or non-numeric. -/
def digitsVal (l : List Char) : Option Nat :=
  if l.isEmpty || !(l.all Char.isDigit) then none
  else some (l.foldl (fun acc c => acc * 10 + (c.toNat - 48)) 0)

/-- Modelled from the spec: signed decimal integer parsing backing
`HttpHeader::findAsLLInt` (not under `src/`). -/
def parseLLInt (l : List Char) : Option Int :=
  match l with
  | '-' :: rest => (digitsVal rest).map (fun n => -(n : Int))
  | _ => (digitsVal l).map (fun n => (n : Int))

/-! ### Header field constants (`HttpHeader.cc` is not under `src/`; the
names and their values are forced by the wire format in spec section 6) -/

def CONNECTION : List Char := ("Connection").toList
def CONTENT_LENGTH : List Char := ("Content-Length").toList
def ACCEPT_ENCODING : List Char := ("Accept-Encoding").toList
def AUTHORIZATION : List Char := ("Authorization").toList
def CLOSE : List Char := ("close").toList
def KEEP_ALIVE : List Char := ("keep-alive").toList
def GZIP : List Char := ("gzip").toList
def HTTP_1_1 : List Char := ("HTTP/1.1").toList
def BASIC : List Char := ("Basic").toList

/-! ### Structured request header -/

/-- The structured request header produced once per request.  Modelled from
the spec (section 3): method, path, version text and the list of field
name/value pairs. -/
structure HttpHeader where
  method : List Char
  requestPath : List Char
  version : List Char
  fields : List (List Char × List Char)
deriving DecidableEq

/-- Modelled from the spec: `HttpHeader::find` is not under `src/`; field
names compare case-insensitively, the last occurrence wins, an absent field
yields the empty string. -/
def HttpHeader.find (h : HttpHeader) (name : List Char) : List Char :=
  (h.fields.foldl (fun acc kv => if strieq kv.1 name then some kv.2 else acc) none).getD []

/-- Modelled from the spec: `HttpHeader::findAsLLInt` is not under `src/`;
absence of the field yields 0 (spec section 3), otherwise the value parses
as a signed decimal integer. -/
def HttpHeader.findAsLLInt (h : HttpHeader) (name : List Char) : Int :=
  (parseLLInt (h.find name)).getD 0

/-! ### End-of-headers detection

Modelled from the spec: `HttpHeaderProcessor` is not under `src/`.  The spec
(section 4.2 and glossary) says the end-of-headers marker is the blank line
terminating the header block, CRLFCRLF or LFLF under tolerant parsing, and
that the parser accumulates bytes across calls and reports how many
accumulated bytes lie past the marker. -/

/-- When the byte string begins at an end-of-headers marker position, the
number of bytes up to and including the earliest marker that starts at its
head: 4 for CRLFCRLF, 2 for LFLF. -/
def isEOHAt (l : List Char) : Option Nat :=
  if l.take 4 = ['\r', '\n', '\r', '\n'] then some 4
  else if l.take 2 = ['\n', '\n'] then some 2
  else none

/-- Index one past the earliest end-of-headers marker of the accumulated
bytes, scanning left to right. -/
def eohEnd : List Char → Option Nat
  | [] => none
  | c :: rest =>
    match isEOHAt (c :: rest) with
    | some k => some k
    | none => (eohEnd rest).map (· + 1)

/-! ### Request header parsing

Modelled from the spec: `HttpHeaderProcessor::getHttpRequestHeader` is not
under `src/`.  Spec section 6: request line `METHOD SP PATH SP VERSION CRLF`
followed by `Name: Value` lines; malformed start lines or field lines are a
protocol error (section 4.2). -/

/-- Split header bytes into lines at LF, dropping one trailing CR per line. -/
def splitLines (l : List Char) : List (List Char) :=
  (List.splitOn '\n' l).map
    (fun line => if line.getLast? = some '\r' then line.dropLast else line)

/-- Parse `METHOD SP PATH SP VERSION`. -/
def parseStartLine (l : List Char) : Option (List Char × List Char × List Char) :=
  match List.splitOn ' ' l with
  | [m, p, v] => if !m.isEmpty && !p.isEmpty && !v.isEmpty then some (m, p, v) else none
  | _ => none

/-- Parse one `Name: Value` field line; the line must contain a colon. -/
def parseFieldLine (l : List Char) : Option (List Char × List Char) :=
  if l.contains ':' then
    let p := divide ':' l
    some (trimLws p.1, trimLws p.2)
  else none

/-- Parse every field line, failing when any one is malformed. -/
def parseFieldLines : List (List Char) → Option (List (List Char × List Char))
  | [] => some []
  | line :: rest =>
    match parseFieldLine line, parseFieldLines rest with
    | some kv, some kvs => some (kv :: kvs)
    | _, _ => none

/-- Parse the accumulated header block (bytes up to the end-of-headers
marker) into a structured request header. -/
def parseRequestHeader (l : List Char) : Option HttpHeader :=
  match (splitLines l).filter (fun ln => !ln.isEmpty) with
  | [] => none
  | start :: fieldLines =>
    match parseStartLine start, parseFieldLines fieldLines with
    | some (m, p, v), some fs =>
      some { method := m, requestPath := p, version := v, fields := fs }
    | _, _ => none

/-! ### Server state

One record per connection, holding the fields of class `HttpServer`
(`HttpServer.cc` lines 56-68) that the modelled operations touch.  The
incoming socket buffer (`SocketRecvBuffer`, not under `src/`) is its byte
window `recvBuf`; the header parser accumulation is `headerAcc`; the body
stringstream `lastBody_` is its content `lastBody` together with its read
position `lastBodyGetPos` (the stream is only ever written, never read, so
the program never advances this position).  The outgoing `socketBuffer_` is
the queue of pushed chunks `sendBuf`. -/

structure HttpServer where
  recvBuf : List Char
  headerAcc : List Char
  lastRequestHeader : Option HttpHeader
  lastBody : List Char
  lastBodyGetPos : Nat
  lastContentLength : Int
  keepAlive : Bool
  gzip : Bool
  acceptsPersistentConnection : Bool
  acceptsGZip : Bool
  username : List Char
  password : List Char
  allowOrigin : List Char
  sendBuf : List (List Char)

/-- Constructor state, `HttpServer.cc` lines 56-68: `keepAlive_(true)`,
`gzip_(false)`, `acceptsPersistentConnection_(true)`, `acceptsGZip_(false)`;
buffers empty, no credentials.  `lastContentLength_` has no initialiser in
the source and is modelled as 0. -/
def initialServer : HttpServer :=
  { recvBuf := []
    headerAcc := []
    lastRequestHeader := none
    lastBody := []
    lastBodyGetPos := 0
    lastContentLength := 0
    keepAlive := true
    gzip := false
    acceptsPersistentConnection := true
    acceptsGZip := false
    username := []
    password := []
    allowOrigin := []
    sendBuf := [] }

/-- Fatal conditions raised by the receive operations (spec section 7). -/
inductive ServerError
  | peerClosed
  | protocolError (msg : String)

/-- `HttpServer.cc` lines 126-131 and 190-195: with an empty buffer, a
`recv()` that returns 0 new bytes while the socket wants neither read nor
write is the peer-closed condition. -/
def peerClosedNow (s : HttpServer) (arrived : List Char) (wantRead wantWrite : Bool) : Bool :=
  s.recvBuf.isEmpty && arrived.isEmpty && !wantRead && !wantWrite

/-- The `recv()` step: when the buffer window is empty, the newly arrived
bytes are appended to it; otherwise no read is attempted. -/
def fillIfEmpty (s : HttpServer) (arrived : List Char) : HttpServer :=
  if s.recvBuf.isEmpty then { s with recvBuf := s.recvBuf ++ arrived } else s

/-- The per-token scan of `HttpServer.cc` lines 169-177: walk the split
Accept-Encoding list, stopping at the first token equal (case-insensitively)
to `gzip`. -/
def findGZipToken : List (List Char) → Bool
  | [] => false
  | t :: ts => if strieq t GZIP then true else findGZipToken ts

/-- `HttpServer::receiveRequest`, `HttpServer.cc` lines 124-183.  `arrived`
is what one `recv()` would append to an empty buffer window; `wantRead` and
`wantWrite` are the socket readiness flags.  Following the source: fill when
empty (throwing on peer close), feed the whole window to the header parser,
then either consume the header bytes (shift by window length minus put-back
length), record body target length (negative Content-Length is a protocol
error), derive the keep-alive and gzip flags and return the header, or, when
the marker is not yet present, clear the buffer window and return no header.
Error paths return no state, matching the exception control flow of the
source. -/
def receiveRequest (s0 : HttpServer) (arrived : List Char) (wantRead wantWrite : Bool) :
    Except ServerError (Option HttpHeader × HttpServer) :=
  if peerClosedNow s0 arrived wantRead wantWrite then .error .peerClosed
  else
    let s := fillIfEmpty s0 arrived
    let acc := s.headerAcc ++ s.recvBuf
    match eohEnd acc with
    | none =>
      .ok (none, { s with headerAcc := acc, recvBuf := [] })
    | some n =>
      match parseRequestHeader (acc.take n) with
      | none => .error (.protocolError ("malformed request header"))
      | some header =>
        let putback := acc.length - n
        let cl := header.findAsLLInt CONTENT_LENGTH
        if cl < 0 then .error (.protocolError ("Content-Length must be positive."))
        else
          .ok (some header,
            { s with
              recvBuf := s.recvBuf.drop (s.recvBuf.length - putback)
              headerAcc := []
              lastRequestHeader := some header
              lastBody := []
              lastBodyGetPos := 0
              lastContentLength := cl
              acceptsPersistentConnection :=
                (!containsTokenCI (header.find CONNECTION) CLOSE) &&
                (header.version == HTTP_1_1 ||
                  containsTokenCI (header.find CONNECTION) KEEP_ALIVE)
              acceptsGZip := findGZipToken (splitIter (header.find ACCEPT_ENCODING) ',') })

/-- `HttpServer::receiveBody`, `HttpServer.cc` lines 185-203.  The clamp on
line 196-198 is `min(getBufferLength(), size_t(lastContentLength_ -
lastBody_.tellg()))`: `tellg` is the read position of the body stream,
which never moves.  The completion test on line 202 compares against
`tellp`, the write position, which is the body content length. -/
def receiveBody (s0 : HttpServer) (arrived : List Char) (wantRead wantWrite : Bool) :
    Except ServerError (Bool × HttpServer) :=
  if s0.lastContentLength = 0 then .ok (true, s0)
  else if peerClosedNow s0 arrived wantRead wantWrite then .error .peerClosed
  else
    let s := fillIfEmpty s0 arrived
    let len := min s.recvBuf.length (s.lastContentLength - (s.lastBodyGetPos : Int)).toNat
    let s2 := { s with
      lastBody := s.lastBody ++ s.recvBuf.take len
      recvBuf := s.recvBuf.drop len }
    .ok (decide (s2.lastContentLength = (s2.lastBody.length : Int)), s2)

/-- `HttpServer::getBody`, `HttpServer.cc` lines 205-208. -/
def getBody (s : HttpServer) : List Char := s.lastBody

/-- Modelled from the spec: accessor declared in `HttpServer.h` (not under
`src/`); gzip is in effect when enabled and negotiated (spec section 4.4). -/
def supportsGZip (s : HttpServer) : Bool := s.gzip && s.acceptsGZip

/-- Modelled from the spec: accessor declared in `HttpServer.h` (not under
`src/`); the connection persists when enabled and negotiated. -/
def supportsPersistentConnection (s : HttpServer) : Bool :=
  s.keepAlive && s.acceptsPersistentConnection

/-- Decimal rendering of a byte count, as `%lu` renders `text.size()`. -/
def natToChars (n : Nat) : List Char := (toString n).toList

/-- The status table of `HttpServer.cc` lines 73-121 (`getStatusString`):
each known code maps to `"<code> <reason>"`, everything else to the empty
string. -/
def getStatusString (status : Int) : List Char :=
  match status with
  | 100 => ("100 Continue").toList
  | 101 => ("101 Switching Protocols").toList
  | 200 => ("200 OK").toList
  | 201 => ("201 Created").toList
  | 202 => ("202 Accepted").toList
  | 203 => ("203 Non-Authoritative Information").toList
  | 204 => ("204 No Content").toList
  | 205 => ("205 Reset Content").toList
  | 206 => ("206 Partial Content").toList
  | 300 => ("300 Multiple Choices").toList
  | 301 => ("301 Moved Permanently").toList
  | 302 => ("302 Found").toList
  | 303 => ("303 See Other").toList
  | 304 => ("304 Not Modified").toList
  | 305 => ("305 Use Proxy").toList
  | 307 => ("307 Temporary Redirect").toList
  | 400 => ("400 Bad Request").toList
  | 401 => ("401 Unauthorized").toList
  | 402 => ("402 Payment Required").toList
  | 403 => ("403 Forbidden").toList
  | 404 => ("404 Not Found").toList
  | 405 => ("405 Method Not Allowed").toList
  | 406 => ("406 Not Acceptable").toList
  | 407 => ("407 Proxy Authentication Required").toList
  | 408 => ("408 Request Timeout").toList
  | 409 => ("409 Conflict").toList
  | 410 => ("410 Gone").toList
  | 411 => ("411 Length Required").toList
  | 412 => ("412 Precondition Failed").toList
  | 413 => ("413 Request Entity Too Large").toList
  | 414 => ("414 Request-URI Too Long").toList
  | 415 => ("415 Unsupported Media Type").toList
  | 416 => ("416 Requested Range Not Satisfiable").toList
  | 417 => ("417 Expectation Failed").toList
  | 426 => ("426 Upgrade Required").toList
  | 500 => ("500 Internal Server Error").toList
  | 501 => ("501 Not Implemented").toList
  | 502 => ("502 Bad Gateway").toList
  | 503 => ("503 Service Unavailable").toList
  | 504 => ("504 Gateway Timeout").toList
  | 505 => ("505 HTTP Version Not Supported").toList
  | _ => []

/-- `HttpServer::feedResponse`, `HttpServer.cc` lines 225-261.  `httpDate`
stands for `Time().toHTTPDate()`, an external clock reading.  The composed
header text and then the body text are pushed onto the outgoing queue; no
network input or output happens here. -/
def feedResponse (s : HttpServer) (status : Int)
    (headers text contentType httpDate : List Char) : HttpServer :=
  let header :=
    ("HTTP/1.1 ").toList ++ getStatusString status ++ ("\r\n").toList ++
    ("Date: ").toList ++ httpDate ++ ("\r\n").toList ++
    ("Content-Length: ").toList ++ natToChars text.length ++ ("\r\n").toList ++
    ("Expires: ").toList ++ httpDate ++ ("\r\n").toList ++
    ("Cache-Control: no-cache\r\n").toList
  let header := if !contentType.isEmpty
    then header ++ ("Content-Type: ").toList ++ contentType ++ ("\r\n").toList
    else header
  let header := if !s.allowOrigin.isEmpty
    then header ++ ("Access-Control-Allow-Origin: ").toList ++ s.allowOrigin ++ ("\r\n").toList
    else header
  let header := if supportsGZip s
    then header ++ ("Content-Encoding: gzip\r\n").toList
    else header
  let header := if !supportsPersistentConnection s
    then header ++ ("Connection: close\r\n").toList
    else header
  let header := header ++ headers ++ ("\r\n").toList
  { s with sendBuf := s.sendBuf ++ [header, text] }

/-- `HttpServer::setUsernamePassword`, `HttpServer.cc` lines 312-317. -/
def setUsernamePassword (s : HttpServer) (username password : List Char) : HttpServer :=
  { s with username := username, password := password }

/-! ### Base64 decoding

Modelled from the spec: `base64::decode` is not under `src/`; spec section 6
gives the `Authorization` wire format `Basic <base64(username:password)>`
and section 4.5 says malformed base64 fails authentication.  Standard
alphabet, four-character groups, optional trailing padding; any malformed
input decodes to the empty string. -/

/-- Value of one base64 alphabet character. -/
def b64Val (c : Char) : Option Nat :=
  if 'A' ≤ c ∧ c ≤ 'Z' then some (c.toNat - 65)
  else if 'a' ≤ c ∧ c ≤ 'z' then some (c.toNat - 71)
  else if '0' ≤ c ∧ c ≤ '9' then some (c.toNat + 4)
  else if c = '+' then some 62
  else if c = '/' then some 63
  else none

/-- Decode complete four-character groups, `none` on any malformation. -/
def base64DecodeGroups : List Char → Option (List Char)
  | [] => some []
  | c1 :: c2 :: c3 :: c4 :: rest =>
    match b64Val c1, b64Val c2 with
    | some v1, some v2 =>
      if c3 = '=' then
        if c4 = '=' ∧ rest = [] then some [Char.ofNat (v1 * 4 + v2 / 16)] else none
      else
        match b64Val c3 with
        | some v3 =>
          if c4 = '=' then
            if rest = [] then
              some [Char.ofNat (v1 * 4 + v2 / 16), Char.ofNat (v2 % 16 * 16 + v3 / 4)]
            else none
          else
            match b64Val c4 with
            | some v4 =>
              match base64DecodeGroups rest with
              | some tail =>
                some (Char.ofNat (v1 * 4 + v2 / 16) ::
                      Char.ofNat (v2 % 16 * 16 + v3 / 4) ::
                      Char.ofNat (v3 % 4 * 64 + v4) :: tail)
              | none => none
            | none => none
        | none => none
    | _, _ => none
  | _ => none

/-- `base64::decode` over a byte string. -/
def base64Decode (l : List Char) : List Char := (base64DecodeGroups l).getD []

/-- `HttpServer::authenticate`, `HttpServer.cc` lines 287-310: trivially
true without configured credentials, otherwise the Authorization value of
the last request header must be present, its first space-delimited token
must equal `Basic`, and the base64-decoded remainder, divided at its first
colon, must equal the configured username and password. -/
def authenticate (s : HttpServer) : Bool :=
  if s.username.isEmpty then true
  else
    let authHeader := (s.lastRequestHeader.map (fun h => h.find AUTHORIZATION)).getD []
    if authHeader.isEmpty then false
    else
      let p := divide ' ' authHeader
      if p.1 == BASIC then
        let userpass := base64Decode p.2
        let up := divide ':' userpass
        up.1 == s.username && up.2 == s.password
      else false

/-! ### Derived runs and specification-side definitions used by the theorems -/

/-- Decimal rendering of an integer status code. -/
def intToChars (i : Int) : List Char := (toString i).toList

/-- One `receiveRequest` call on a fresh connection with the whole request
available at once, observing the returned header and resulting state. -/
def runRequest (raw : String) : Option (HttpHeader × HttpServer) :=
  match receiveRequest initialServer raw.toList true false with
  | .ok (some h, s) => some (h, s)
  | _ => none

/-- Drive `receiveRequest` across successive readiness cycles, one chunk of
newly arrived bytes per cycle, until it produces a header. -/
def runCycles (s : HttpServer) : List (List Char) → Option HttpHeader
  | [] => none
  | chunk :: rest =>
    match receiveRequest s chunk true false with
    | .ok (some h, _) => some h
    | .ok (none, s2) => runCycles s2 rest
    | .error _ => none

/-- The request header determined by a byte sequence alone: the bytes up to
the earliest end-of-headers marker, parsed, subject to the non-negative
Content-Length check of `receiveRequest`. -/
def headerOf (bytes : List Char) : Option HttpHeader :=
  match eohEnd bytes with
  | none => none
  | some n =>
    match parseRequestHeader (bytes.take n) with
    | none => none
    | some h => if h.findAsLLInt CONTENT_LENGTH < 0 then none else some h

/-- The response header bytes as the specification describes them: the
status line, then `Date`, `Content-Length` (exactly the byte length of the
body text), `Expires`, `Cache-Control: no-cache`, optional `Content-Type`
when non-empty, optional `Access-Control-Allow-Origin` when configured,
optional `Content-Encoding: gzip` when gzip is in effect, optional
`Connection: close` when the connection does not persist, then the extra
header lines verbatim and a blank line. -/
def specResponseHead (s : HttpServer) (status : Int)
    (extraHeaderLines bodyText contentType httpDate : List Char) : List Char :=
  ("HTTP/1.1 ").toList ++ getStatusString status ++ ("\r\n").toList ++
  ("Date: ").toList ++ httpDate ++ ("\r\n").toList ++
  ("Content-Length: ").toList ++ natToChars bodyText.length ++ ("\r\n").toList ++
  ("Expires: ").toList ++ httpDate ++ ("\r\n").toList ++
  ("Cache-Control: no-cache\r\n").toList ++
  (if !contentType.isEmpty
    then ("Content-Type: ").toList ++ contentType ++ ("\r\n").toList else []) ++
  (if !s.allowOrigin.isEmpty
    then ("Access-Control-Allow-Origin: ").toList ++ s.allowOrigin ++ ("\r\n").toList else []) ++
  (if supportsGZip s then ("Content-Encoding: gzip\r\n").toList else []) ++
  (if !supportsPersistentConnection s then ("Connection: close\r\n").toList else []) ++
  extraHeaderLines ++ ("\r\n").toList

/-- The full response byte sequence the specification describes: the header
bytes followed by the body text unchanged. -/
def specResponseBytes (s : HttpServer) (status : Int)
    (extraHeaderLines bodyText contentType httpDate : List Char) : List Char :=
  specResponseHead s status extraHeaderLines bodyText contentType httpDate ++ bodyText

/-- The status table as the specification enumerates it (section 6, the
standard codes 100 to 505, the unused 306 excluded): code and canonical
reason phrase. -/
def specStatusTable : List (Int × List Char) :=
  [(100, ("Continue").toList),
   (101, ("Switching Protocols").toList),
   (200, ("OK").toList),
   (201, ("Created").toList),
   (202, ("Accepted").toList),
   (203, ("Non-Authoritative Information").toList),
   (204, ("No Content").toList),
   (205, ("Reset Content").toList),
   (206, ("Partial Content").toList),
   (300, ("Multiple Choices").toList),
   (301, ("Moved Permanently").toList),
   (302, ("Found").toList),
   (303, ("See Other").toList),
   (304, ("Not Modified").toList),
   (305, ("Use Proxy").toList),
   (307, ("Temporary Redirect").toList),
   (400, ("Bad Request").toList),
   (401, ("Unauthorized").toList),
   (402, ("Payment Required").toList),
   (403, ("Forbidden").toList),
   (404, ("Not Found").toList),
   (405, ("Method Not Allowed").toList),
   (406, ("Not Acceptable").toList),
   (407, ("Proxy Authentication Required").toList),
   (408, ("Request Timeout").toList),
   (409, ("Conflict").toList),
   (410, ("Gone").toList),
   (411, ("Length Required").toList),
   (412, ("Precondition Failed").toList),
   (413, ("Request Entity Too Large").toList),
   (414, ("Request-URI Too Long").toList),
   (415, ("Unsupported Media Type").toList),
   (416, ("Requested Range Not Satisfiable").toList),
   (417, ("Expectation Failed").toList),
   (426, ("Upgrade Required").toList),
   (500, ("Internal Server Error").toList),
   (501, ("Not Implemented").toList),
   (502, ("Bad Gateway").toList),
   (503, ("Service Unavailable").toList),
   (504, ("Gateway Timeout").toList),
   (505, ("HTTP Version Not Supported").toList)]

/-- Two `receiveBody` calls against a request with Content-Length 4 whose
body arrives as `ab` and then as `cdXY`, the last two bytes belonging to a
pipelined next request.  Observes the completion flag of the second call,
the accumulated body and the bytes left in the incoming buffer. -/
def receiveBodyTwice : Option (Bool × List Char × List Char) :=
  match receiveBody { initialServer with lastContentLength := 4 } (("ab").toList) true false with
  | .ok (_, s1) =>
    match receiveBody s1 (("cdXY").toList) true false with
    | .ok (done, s2) => some (done, s2.lastBody, s2.recvBuf)
    | .error _ => none
  | .error _ => none

/-- A connection state with configured credentials whose last request
carries the given Authorization header value. -/
def authServer (username password authValue : List Char) : HttpServer :=
  { initialServer with
      username := username
      password := password
      lastRequestHeader := some
        { method := ("GET").toList
          requestPath := ("/").toList
          version := ("HTTP/1.1").toList
          fields := [(AUTHORIZATION, authValue)] } }

/-! ### Lemmas about the end-of-headers scan -/

/-- A marker found at the head is at least two bytes and fits the string. -/
theorem isEOHAt_bounds {l : List Char} {k : Nat} (h : isEOHAt l = some k) :
    2 ≤ k ∧ k ≤ l.length := by
  unfold isEOHAt at h
  split_ifs at h with h4 h2
  · cases h
    have := congrArg List.length h4
    simp [List.length_take] at this
    omega
  · cases h
    have := congrArg List.length h2
    simp [List.length_take] at this
    omega

/-- A marker at the head survives appending further bytes. -/
theorem isEOHAt_append {l : List Char} {k : Nat} (t : List Char)
    (h : isEOHAt l = some k) : isEOHAt (l ++ t) = some k := by
  obtain ⟨-, hlen⟩ := isEOHAt_bounds h
  unfold isEOHAt at h ⊢
  split_ifs at h with h4 h2
  · cases h
    rw [List.take_append_of_le_length (by omega), h4]
    simp
  · cases h
    have ht2 : (l ++ t).take 2 = ['\n', '\n'] := by
      rw [List.take_append_of_le_length (by omega), h2]
    have ht4 : ¬(l ++ t).take 4 = ['\r', '\n', '\r', '\n'] := by
      intro hc
      have : (l ++ t).take 2 = ['\r', '\n'] := by
        have := List.take_take 2 4 (l ++ t)
        rw [hc] at this
        simpa using this.symm
      rw [ht2] at this
      simp at this
    rw [if_neg ht4, if_pos ht2]

/-- A marker at the head that ends inside a prefix is a marker at the head
of that prefix. -/
theorem isEOHAt_restrict {l t : List Char} {k : Nat}
    (h : isEOHAt (l ++ t) = some k) (hk : k ≤ l.length) : isEOHAt l = some k := by
  unfold isEOHAt at h ⊢
  split_ifs at h with h4 h2
  · cases h
    rw [List.take_append_of_le_length (by omega)] at h4
    rw [h4]
    simp
  · cases h
    rw [List.take_append_of_le_length (by omega)] at h2
    have hl4 : ¬l.take 4 = ['\r', '\n', '\r', '\n'] := by
      intro hc
      have : l.take 2 = ['\r', '\n'] := by
        have := List.take_take 2 4 l
        rw [hc] at this
        simpa using this.symm
      rw [h2] at this
      simp at this
    rw [if_neg hl4, if_pos h2]

/-- The earliest marker ends at least two bytes in and within the string. -/
theorem eohEnd_bounds : ∀ {l : List Char} {n : Nat},
    eohEnd l = some n → 2 ≤ n ∧ n ≤ l.length
  | [], n, h => by simp [eohEnd] at h
  | c :: rest, n, h => by
    unfold eohEnd at h
    cases hiso : isEOHAt (c :: rest) with
    | some k =>
      rw [hiso] at h
      cases h
      exact isEOHAt_bounds hiso
    | none =>
      rw [hiso] at h
      obtain ⟨m, hm, rfl⟩ := Option.map_eq_some'.mp h
      have := eohEnd_bounds hm
      simp only [List.length_cons]
      omega

/-- When no marker starts at the head but a marker occurs further on, the
head position cannot become a marker through appended bytes. -/
theorem isEOHAt_append_none {c : Char} {rest : List Char} (t : List Char) {m : Nat}
    (hiso : isEOHAt (c :: rest) = none) (hm : eohEnd rest = some m) :
    isEOHAt (c :: (rest ++ t)) = none := by
  cases hiso2 : isEOHAt (c :: (rest ++ t)) with
  | none => rfl
  | some k =>
    exfalso
    unfold isEOHAt at hiso2
    split_ifs at hiso2 with h4 h2
    · by_cases hlen : 4 ≤ (c :: rest).length
      · have h4l : (c :: rest).take 4 = ['\r', '\n', '\r', '\n'] := by
          rw [← @List.take_append_of_le_length Char (c :: rest) t 4 hlen, List.cons_append]
          exact h4
        unfold isEOHAt at hiso
        rw [if_pos h4l] at hiso
        cases hiso
      · have hle : (c :: rest).length ≤ 3 := by omega
        have h6 : List.take (c :: rest).length ((c :: rest) ++ t) = c :: rest :=
          List.take_left _ _
        have h7 : List.take (c :: rest).length (((c :: rest) ++ t).take 4) =
            List.take (c :: rest).length ((c :: rest) ++ t) := by
          rw [List.take_take]
          congr 1
          omega
        rw [List.cons_append, h4] at h7
        have h5 : c :: rest = List.take (c :: rest).length (['\r', '\n', '\r', '\n'] : List Char) := by
          rw [h7]
          rw [List.cons_append] at h6
          rw [h6]
        match rest, hm, h5, hle with
        | [], hm, h5, hle => simp [eohEnd] at hm
        | [a], hm, h5, hle =>
          simp at h5
          obtain ⟨-, rfl⟩ := h5
          have : eohEnd ['\n'] = none := by decide
          rw [this] at hm
          cases hm
        | [a, b], hm, h5, hle =>
          simp at h5
          obtain ⟨-, rfl, rfl⟩ := h5
          have : eohEnd ['\n', '\r'] = none := by decide
          rw [this] at hm
          cases hm
        | a :: b :: d :: tail, hm, h5, hle =>
          simp at hle
    · by_cases hlen : 2 ≤ (c :: rest).length
      · have h2l : (c :: rest).take 2 = ['\n', '\n'] := by
          rw [← @List.take_append_of_le_length Char (c :: rest) t 2 hlen, List.cons_append]
          exact h2
        have h4l : ¬(c :: rest).take 4 = ['\r', '\n', '\r', '\n'] := by
          intro hc4
          have hlen4 : 4 ≤ (c :: rest).length := by
            have h9 := congrArg List.length hc4
            simp [List.length_take, List.length_cons] at h9
            simp [List.length_cons]
            omega
          rw [← @List.take_append_of_le_length Char (c :: rest) t 4 hlen4, List.cons_append] at hc4
          exact h4 hc4
        unfold isEOHAt at hiso
        rw [if_neg h4l, if_pos h2l] at hiso
        cases hiso
      · match rest, hm, hlen with
        | [], hm, hlen => simp [eohEnd] at hm
        | a :: tail, hm, hlen => simp at hlen

/-- The earliest end-of-headers marker position is stable under appending
further bytes. -/
theorem eohEnd_append (t : List Char) : ∀ {l : List Char} {n : Nat},
    eohEnd l = some n → eohEnd (l ++ t) = some n
  | [], n, h => by simp [eohEnd] at h
  | c :: rest, n, h => by
    unfold eohEnd at h
    cases hiso : isEOHAt (c :: rest) with
    | some k =>
      rw [hiso] at h
      cases h
      have h2 := isEOHAt_append t hiso
      rw [List.cons_append] at h2 ⊢
      unfold eohEnd
      rw [h2]
    | none =>
      rw [hiso] at h
      obtain ⟨m, hm, rfl⟩ := Option.map_eq_some'.mp h
      have hiso2 := isEOHAt_append_none t hiso hm
      rw [List.cons_append]
      unfold eohEnd
      rw [hiso2, eohEnd_append t hm]
      rfl

/-- A marker that ends inside a prefix is already the earliest marker of
that prefix. -/
theorem eohEnd_restrict : ∀ {l : List Char} (t : List Char) {n : Nat},
    eohEnd (l ++ t) = some n → n ≤ l.length → eohEnd l = some n
  | [], t, n, h, hn => by
    obtain ⟨h2, -⟩ := eohEnd_bounds h
    simp at hn
    subst hn
    exact absurd h2 (by decide)
  | c :: rest, t, n, h, hn => by
    rw [List.cons_append] at h
    unfold eohEnd at h ⊢
    cases hiso : isEOHAt (c :: (rest ++ t)) with
    | some k =>
      rw [hiso] at h
      have hkn : k = n := by injection h
      have hr : isEOHAt (c :: rest) = some k := by
        apply isEOHAt_restrict (t := t)
        · rw [List.cons_append]
          exact hiso
        · rw [hkn]
          exact hn
      rw [hr]
      exact h
    | none =>
      rw [hiso] at h
      obtain ⟨m, hm, rfl⟩ := Option.map_eq_some'.mp h
      have hr : eohEnd rest = some m := by
        apply eohEnd_restrict t hm
        simp at hn
        omega
      have hisol : isEOHAt (c :: rest) = none := by
        cases hk : isEOHAt (c :: rest) with
        | none => rfl
        | some k =>
          have hk2 := isEOHAt_append t hk
          rw [List.cons_append] at hk2
          rw [hk2] at hiso
          cases hiso
      rw [hisol, hr]
      rfl

/-- Bytes buffered beyond a marker-free accumulation begin strictly after
that accumulation whenever a marker appears. -/
theorem eohEnd_none_lt {a w : List Char} {n : Nat}
    (ha : eohEnd a = none) (h : eohEnd (a ++ w) = some n) : a.length < n := by
  by_contra hc
  push_neg at hc
  rw [eohEnd_restrict w h hc] at ha
  cases ha

/-- The request header of a byte sequence is already determined by any
prefix that contains the earliest marker. -/
theorem headerOf_append {l : List Char} (t : List Char) {n : Nat}
    (h : eohEnd l = some n) : headerOf (l ++ t) = headerOf l := by
  have h2 := eohEnd_append t h
  have h3 : (l ++ t).take n = l.take n :=
    List.take_append_of_le_length (eohEnd_bounds h).2
  unfold headerOf
  simp only [h, h2, h3]

/-! ### Lemmas about token scanning -/

/-- The early-exit loop over the split Accept-Encoding list is membership. -/
theorem findGZipToken_eq_any : ∀ ts : List (List Char),
    findGZipToken ts = ts.any (fun tok => strieq tok GZIP)
  | [] => rfl
  | t :: ts => by
    unfold findGZipToken
    rw [findGZipToken_eq_any ts]
    cases h : strieq t GZIP <;> simp [List.any_cons, h]

/-- Dropping empty tokens does not change a scan whose predicate rejects
the empty token. -/
theorem any_filter_nonempty (p : List Char → Bool) (hp : p [] = false) :
    ∀ ts : List (List Char), (ts.filter (fun t => !t.isEmpty)).any p = ts.any p
  | [] => rfl
  | t :: ts => by
    rcases t with - | ⟨c, cs⟩
    · simp [List.filter_cons, any_filter_nonempty p hp ts, hp]
    · simp [List.filter_cons, any_filter_nonempty p hp ts]

/-! ### Multi-cycle receive behaviour -/

/-- Driving `receiveRequest` cycle by cycle from a state whose buffer
window is empty and whose accumulation holds no marker produces exactly the
header determined by the accumulated bytes plus all newly arriving bytes. -/
theorem runCycles_eq_headerOf (chunks : List (List Char)) :
    ∀ s : HttpServer, s.recvBuf = [] → eohEnd s.headerAcc = none →
      runCycles s chunks = headerOf (s.headerAcc ++ chunks.flatten) := by
  induction chunks with
  | nil =>
    intro s hbuf hacc
    simp [runCycles, headerOf, hacc]
  | cons chunk rest ih =>
    intro s hbuf hacc
    cases heoh : eohEnd (s.headerAcc ++ chunk) with
    | none =>
      have hrr : receiveRequest s chunk true false =
          .ok (none, { s with headerAcc := s.headerAcc ++ chunk, recvBuf := [] }) := by
        unfold receiveRequest
        simp [peerClosedNow, fillIfEmpty, hbuf, heoh]
      rw [runCycles, hrr]
      simpa [List.append_assoc] using
        ih { s with headerAcc := s.headerAcc ++ chunk, recvBuf := [] } rfl (by simpa using heoh)
    | some n =>
      have hho : headerOf (s.headerAcc ++ (chunk :: rest).flatten) =
          headerOf (s.headerAcc ++ chunk) := by
        rw [List.flatten_cons, ← List.append_assoc]
        exact headerOf_append rest.flatten heoh
      rw [runCycles, hho]
      unfold headerOf
      rw [heoh]
      cases hp : parseRequestHeader ((s.headerAcc ++ chunk).take n) with
      | none =>
        have hrr : receiveRequest s chunk true false =
            .error (.protocolError ("malformed request header")) := by
          unfold receiveRequest
          simp [peerClosedNow, fillIfEmpty, hbuf, heoh, hp]
        rw [hrr]
        simp [hp]
      | some header =>
        by_cases hcl : header.findAsLLInt CONTENT_LENGTH < 0
        · have hrr : receiveRequest s chunk true false =
              .error (.protocolError ("Content-Length must be positive.")) := by
            unfold receiveRequest
            simp [peerClosedNow, fillIfEmpty, hbuf, heoh, hp, hcl]
          rw [hrr]
          simp [hp, hcl]
        · have hrr : ∃ s2, receiveRequest s chunk true false = .ok (some header, s2) := by
            unfold receiveRequest
            simp [peerClosedNow, fillIfEmpty, hbuf, heoh, hp, hcl]
          obtain ⟨s2, hrr⟩ := hrr
          rw [hrr]
          simp [hp, hcl]

/-- Inversion of a successful `receiveRequest`: the returned state stores
the negotiation flags computed from the returned header, the Content-Length
target (necessarily non-negative), an empty body accumulator and the header
itself. -/
theorem receiveRequest_ok_inv {s s2 : HttpServer} {arrived : List Char}
    {wantRead wantWrite : Bool} {h : HttpHeader}
    (hr : receiveRequest s arrived wantRead wantWrite = .ok (some h, s2)) :
    s2.acceptsPersistentConnection =
      ((!containsTokenCI (h.find CONNECTION) CLOSE) &&
        (h.version == HTTP_1_1 || containsTokenCI (h.find CONNECTION) KEEP_ALIVE)) ∧
    s2.acceptsGZip = findGZipToken (splitIter (h.find ACCEPT_ENCODING) ',') ∧
    s2.lastContentLength = h.findAsLLInt CONTENT_LENGTH ∧
    ¬h.findAsLLInt CONTENT_LENGTH < 0 ∧
    s2.lastBody = [] ∧ s2.lastRequestHeader = some h := by
  unfold receiveRequest at hr
  split at hr
  · cases hr
  · simp only [] at hr
    split at hr
    · simp at hr
    · split at hr
      · cases hr
      · split at hr
        · cases hr
        · simp only [Except.ok.injEq, Prod.mk.injEq, Option.some.injEq] at hr
          obtain ⟨rfl, rfl⟩ := hr
          refine ⟨rfl, rfl, rfl, ?_, rfl, rfl⟩
          assumption

/-- Dropping past an initial segment drops into the remainder. -/
theorem drop_append_ge (a w : List Char) (n : Nat) (h : a.length ≤ n) :
    (a ++ w).drop n = w.drop (n - a.length) := by
  obtain ⟨k, rfl⟩ : ∃ k, n = a.length + k := ⟨n - a.length, by omega⟩
  rw [← List.drop_drop, List.drop_left, Nat.add_sub_cancel_left]

/-- A non-empty list is not `isEmpty`. -/
theorem isEmpty_false_of_ne {l : List Char} (h : l ≠ []) : l.isEmpty = false := by
  cases l with
  | nil => exact absurd rfl h
  | cons c cs => rfl

/-- An `isEmpty` list is nil. -/
theorem eq_nil_of_isEmpty {l : List Char} (h : l.isEmpty = true) : l = [] := by
  cases l with
  | nil => rfl
  | cons c cs => cases h

/-! ### Claim theorems -/

/-- C1: For every received request, the stored keep-alive flag equals: the
Connection header token list does not contain `close` AND (the request
version is HTTP/1.1 OR the token list contains `keep-alive`); in
particular, on full concrete requests, HTTP/1.0 with no Connection header
yields false, HTTP/1.0 with `Connection: keep-alive` yields true, HTTP/1.1
with no Connection header yields true, and HTTP/1.1 with
`Connection: close` yields false. -/
theorem receiveRequest_keepAlive :
    (∀ (s : HttpServer) (arrived : List Char) (wantRead wantWrite : Bool),
      match receiveRequest s arrived wantRead wantWrite with
      | .ok (some h, s2) =>
        s2.acceptsPersistentConnection =
          ((!containsTokenCI (h.find CONNECTION) CLOSE) &&
            (h.version == HTTP_1_1 || containsTokenCI (h.find CONNECTION) KEEP_ALIVE))
      | _ => True) ∧
    (runRequest ("GET / HTTP/1.0\r\n\r\n")).map
      (fun p => p.2.acceptsPersistentConnection) = some false ∧
    (runRequest ("GET / HTTP/1.0\r\nConnection: keep-alive\r\n\r\n")).map
      (fun p => p.2.acceptsPersistentConnection) = some true ∧
    (runRequest ("GET / HTTP/1.1\r\n\r\n")).map
      (fun p => p.2.acceptsPersistentConnection) = some true ∧
    (runRequest ("GET / HTTP/1.1\r\nConnection: close\r\n\r\n")).map
      (fun p => p.2.acceptsPersistentConnection) = some false := by
  refine ⟨?_, by decide, by decide, by decide, by decide⟩
  intro s arrived wantRead wantWrite
  rcases hr : receiveRequest s arrived wantRead wantWrite with e | ⟨_ | h, s2⟩
  · trivial
  · trivial
  · exact (receiveRequest_ok_inv hr).1

/-- C3: For every received request, the stored gzip-acceptance flag is true
exactly when the Accept-Encoding value, split on commas with trimming,
contains a token case-insensitively equal to `gzip`; on full concrete
requests, `x-gzip` alone yields false and `deflate, gzip` yields true. -/
theorem receiveRequest_acceptsGzip :
    (∀ (s : HttpServer) (arrived : List Char) (wantRead wantWrite : Bool),
      match receiveRequest s arrived wantRead wantWrite with
      | .ok (some h, s2) =>
        s2.acceptsGZip =
          ((List.splitOn ',' (h.find ACCEPT_ENCODING)).map trimLws).any
            (fun tok => strieq tok GZIP)
      | _ => True) ∧
    (runRequest ("GET / HTTP/1.1\r\nAccept-Encoding: x-gzip\r\n\r\n")).map
      (fun p => p.2.acceptsGZip) = some false ∧
    (runRequest ("GET / HTTP/1.1\r\nAccept-Encoding: deflate, gzip\r\n\r\n")).map
      (fun p => p.2.acceptsGZip) = some true ∧
    (runRequest ("GET / HTTP/1.1\r\nAccept-Encoding: deflate, GZip\r\n\r\n")).map
      (fun p => p.2.acceptsGZip) = some true := by
  refine ⟨?_, by decide, by decide, by decide⟩
  intro s arrived wantRead wantWrite
  rcases hr : receiveRequest s arrived wantRead wantWrite with e | ⟨_ | h, s2⟩
  · trivial
  · trivial
  · show s2.acceptsGZip =
      ((List.splitOn ',' (h.find ACCEPT_ENCODING)).map trimLws).any (fun tok => strieq tok GZIP)
    rw [(receiveRequest_ok_inv hr).2.1, findGZipToken_eq_any, splitIter]
    exact any_filter_nonempty _ (by decide) _

/-- C5: For every partition of a request byte sequence into chunks
delivered across successive receiveRequest/fill cycles, the finally
produced request header (method, path, version and field map) is identical
to the one produced when all the bytes are delivered in a single cycle. -/
theorem receiveRequest_chunk_independence (chunks : List (List Char)) :
    runCycles initialServer chunks = runCycles initialServer [chunks.flatten] := by
  rw [runCycles_eq_headerOf chunks initialServer rfl rfl,
      runCycles_eq_headerOf [chunks.flatten] initialServer rfl rfl]
  simp [initialServer]

/-- C2 (falsified by the code, see RESULTS): with Content-Length 4 and the
body arriving as `ab` then `cdXY`, the second receiveBody call clamps
against the never-moving stream read position rather than against the bytes
already written, so it moves four bytes instead of two: the accumulated
body becomes the six bytes `abcdXY`, exceeding the target length, the two
pipelined bytes `XY` are consumed from the buffer, and the completion flag
stays false. -/
theorem receiveBody_tellg_overconsumes :
    receiveBodyTwice = some (false, ("abcdXY").toList, ([] : List Char)) ∧
    (("abcdXY").toList).length = 6 := by decide

/-- C10: configuring credentials with an empty username makes authenticate
return true for every state, any password and any Authorization header. -/
theorem authenticate_empty_username (s : HttpServer) (password : List Char) :
    authenticate (setUsernamePassword s [] password) = true := by
  simp [authenticate, setUsernamePassword]

/-- C8 counterexample: the status text of the unrecognized code 999 is the
empty string, so the status line is `HTTP/1.1 \r\n`: the numeric status is
not rendered, contrary to the claim. -/
theorem statusLine_unknown_counterexample :
    getStatusString 999 = [] ∧
    ("HTTP/1.1 ").toList ++ getStatusString 999 ++ ("\r\n").toList =
      ("HTTP/1.1 \r\n").toList ∧
    ("HTTP/1.1 ").toList ++ getStatusString 999 ++ ("\r\n").toList ≠
      ("HTTP/1.1 999 \r\n").toList := by decide

/-- C9 counterexample: with configured username `alice` and empty password,
the header `Basic YWxpY2U=` authenticates although its payload decodes to
`alice`, which is not byte-for-byte `alice:` (username, colon, password). -/
theorem authenticate_empty_password_counterexample :
    authenticate (authServer (("alice").toList) [] (("Basic YWxpY2U=").toList)) = true ∧
    base64Decode ((divide ' ' (("Basic YWxpY2U=").toList)).2) ≠
      ("alice").toList ++ ':' :: ([] : List Char) := by decide

/-- C4: when the end-of-headers marker is found, receiveRequest shifts the
incoming buffer by the window length minus the put-back length, consuming
exactly the header bytes and leaving the already-received body bytes, and
returns the structured header; when the marker is not yet found, it clears
the buffer window, keeping the bytes in the parser accumulation, and
returns no header. -/
theorem receiveRequest_shift (s : HttpServer) (arrived : List Char)
    (wantRead wantWrite : Bool)
    (hbuf : s.recvBuf = []) (hacc : eohEnd s.headerAcc = none) (hne : arrived ≠ []) :
    (∀ n : Nat, eohEnd (s.headerAcc ++ arrived) = some n →
      ∀ h : HttpHeader, parseRequestHeader ((s.headerAcc ++ arrived).take n) = some h →
        ¬h.findAsLLInt CONTENT_LENGTH < 0 →
        ∃ s2, receiveRequest s arrived wantRead wantWrite = .ok (some h, s2) ∧
          s2.recvBuf = arrived.drop
            (arrived.length - ((s.headerAcc ++ arrived).length - n)) ∧
          s2.recvBuf = (s.headerAcc ++ arrived).drop n ∧
          (s.headerAcc ++ arrived).take n ++ s2.recvBuf = s.headerAcc ++ arrived ∧
          s2.recvBuf.length = (s.headerAcc ++ arrived).length - n) ∧
    (eohEnd (s.headerAcc ++ arrived) = none →
      ∃ s2, receiveRequest s arrived wantRead wantWrite = .ok (none, s2) ∧
        s2.recvBuf = [] ∧ s2.headerAcc = s.headerAcc ++ arrived) := by
  have hne2 : arrived.isEmpty = false := isEmpty_false_of_ne hne
  constructor
  · intro n heoh h hp hcl
    have hr : receiveRequest s arrived wantRead wantWrite =
        .ok (some h, { s with
          recvBuf := arrived.drop
            (arrived.length - ((s.headerAcc ++ arrived).length - n))
          headerAcc := []
          lastRequestHeader := some h
          lastBody := []
          lastBodyGetPos := 0
          lastContentLength := h.findAsLLInt CONTENT_LENGTH
          acceptsPersistentConnection :=
            (!containsTokenCI (h.find CONNECTION) CLOSE) &&
              (h.version == HTTP_1_1 || containsTokenCI (h.find CONNECTION) KEEP_ALIVE)
          acceptsGZip := findGZipToken (splitIter (h.find ACCEPT_ENCODING) ',') }) := by
      unfold receiveRequest
      simp [peerClosedNow, fillIfEmpty, hbuf, hne2, heoh, hp, hcl]
    have hlt : s.headerAcc.length < n := eohEnd_none_lt hacc heoh
    have hle : n ≤ (s.headerAcc ++ arrived).length := (eohEnd_bounds heoh).2
    have hidx : arrived.length - ((s.headerAcc ++ arrived).length - n) =
        n - s.headerAcc.length := by
      rw [List.length_append] at hle ⊢
      omega
    have hdrop : arrived.drop (arrived.length - ((s.headerAcc ++ arrived).length - n)) =
        (s.headerAcc ++ arrived).drop n := by
      rw [hidx, drop_append_ge s.headerAcc arrived n (by omega)]
    refine ⟨_, hr, rfl, ?_, ?_, ?_⟩
    · exact hdrop
    · rw [hdrop, List.take_append_drop]
    · rw [hdrop, List.length_drop]
  · intro heoh
    refine ⟨{ s with headerAcc := s.headerAcc ++ arrived, recvBuf := [] }, ?_, rfl, rfl⟩
    unfold receiveRequest
    simp [peerClosedNow, fillIfEmpty, hbuf, hne2, heoh]

/-- Witness for the C4 theorem at a concrete request whose final read also
delivered four body bytes. -/
theorem receiveRequest_shift_witness :
    ∃ s2, receiveRequest initialServer (("GET / HTTP/1.1\r\n\r\nBODY").toList) true false =
        .ok (some { method := ("GET").toList, requestPath := ("/").toList,
                    version := ("HTTP/1.1").toList, fields := [] }, s2) ∧
      s2.recvBuf = ("BODY").toList := by
  obtain ⟨s2, hr, -, hb2, -, -⟩ :=
    (receiveRequest_shift initialServer (("GET / HTTP/1.1\r\n\r\nBODY").toList) true false
        rfl rfl (by decide)).1
      18 (by decide)
      { method := ("GET").toList, requestPath := ("/").toList,
        version := ("HTTP/1.1").toList, fields := [] } (by decide) (by decide)
  refine ⟨s2, hr, ?_⟩
  rw [hb2]
  decide

/-- C6: a parsed negative Content-Length makes receiveRequest fail with a
protocol error before any body bytes are read, while a request with no
Content-Length field succeeds with a body target of zero, so receiveBody
completes at once without consuming anything. -/
theorem contentLength_negative_protocolError (s : HttpServer) (arrived : List Char)
    (wantRead wantWrite : Bool) (n : Nat) (h : HttpHeader)
    (hbuf : s.recvBuf = []) (hne : arrived ≠ [])
    (heoh : eohEnd (s.headerAcc ++ arrived) = some n)
    (hp : parseRequestHeader ((s.headerAcc ++ arrived).take n) = some h) :
    (h.findAsLLInt CONTENT_LENGTH < 0 →
      receiveRequest s arrived wantRead wantWrite =
        .error (.protocolError ("Content-Length must be positive."))) ∧
    (h.find CONTENT_LENGTH = [] →
      ∃ s2, receiveRequest s arrived wantRead wantWrite = .ok (some h, s2) ∧
        s2.lastContentLength = 0 ∧ s2.lastBody = [] ∧
        ∀ (arrived2 : List Char) (wantRead2 wantWrite2 : Bool),
          receiveBody s2 arrived2 wantRead2 wantWrite2 = .ok (true, s2)) := by
  have hne2 : arrived.isEmpty = false := isEmpty_false_of_ne hne
  constructor
  · intro hcl
    unfold receiveRequest
    simp [peerClosedNow, fillIfEmpty, hbuf, hne2, heoh, hp, hcl]
  · intro hfind
    have hcl0 : h.findAsLLInt CONTENT_LENGTH = 0 := by
      unfold HttpHeader.findAsLLInt
      rw [hfind]
      rfl
    have hcl : ¬h.findAsLLInt CONTENT_LENGTH < 0 := by
      rw [hcl0]
      decide
    have hsucc : ∃ s2, receiveRequest s arrived wantRead wantWrite = .ok (some h, s2) := by
      unfold receiveRequest
      simp [peerClosedNow, fillIfEmpty, hbuf, hne2, heoh, hp, hcl]
    obtain ⟨s2, hr⟩ := hsucc
    have hinv := receiveRequest_ok_inv hr
    have hcl2 : s2.lastContentLength = 0 := by rw [hinv.2.2.1, hcl0]
    refine ⟨s2, hr, hcl2, hinv.2.2.2.2.1, ?_⟩
    intro arrived2 wantRead2 wantWrite2
    unfold receiveBody
    rw [if_pos hcl2]

/-- Witness for the C6 theorem: a request carrying `Content-Length: -1` is
rejected with the protocol error, and one with no Content-Length field
succeeds with target length zero. -/
theorem contentLength_negative_protocolError_witness :
    receiveRequest initialServer (("POST / HTTP/1.1\r\nContent-Length: -1\r\n\r\n").toList)
        true false =
      .error (.protocolError ("Content-Length must be positive.")) ∧
    ∃ s2, receiveRequest initialServer (("GET / HTTP/1.1\r\n\r\n").toList) true false =
        .ok (some { method := ("GET").toList, requestPath := ("/").toList,
                    version := ("HTTP/1.1").toList, fields := [] }, s2) ∧
      s2.lastContentLength = 0 := by
  constructor
  · exact (contentLength_negative_protocolError initialServer
      (("POST / HTTP/1.1\r\nContent-Length: -1\r\n\r\n").toList) true false 39
      { method := ("POST").toList, requestPath := ("/").toList,
        version := ("HTTP/1.1").toList,
        fields := [(("Content-Length").toList, ("-1").toList)] }
      rfl (by decide) (by decide) (by decide)).1 (by decide)
  · obtain ⟨s2, hr, hcl, -, -⟩ :=
      (contentLength_negative_protocolError initialServer
        (("GET / HTTP/1.1\r\n\r\n").toList) true false 18
        { method := ("GET").toList, requestPath := ("/").toList,
          version := ("HTTP/1.1").toList, fields := [] }
        rfl (by decide) (by decide) (by decide)).2 (by decide)
    exact ⟨s2, hr, hcl⟩

set_option maxRecDepth 4000 in
/-- The outgoing queue gains exactly the composed header chunk and the body
chunk, and the header chunk is the specified header byte sequence. -/
theorem feedResponse_shape (s : HttpServer) (status : Int)
    (headers text contentType httpDate : List Char) :
    (feedResponse s status headers text contentType httpDate).sendBuf =
      s.sendBuf ++ [specResponseHead s status headers text contentType httpDate, text] := by
  simp only [feedResponse, specResponseHead]
  split_ifs <;> simp [List.append_assoc]

/-- C7: feedResponse enqueues, performing no network input or output,
exactly the byte sequence the specification prescribes: the status line,
the fixed headers in order with Content-Length equal to the byte length of
the body, the optional headers under their conditions, the extra header
lines, a blank line, then the body unchanged; a 200 response with body
`hello` and type `text/plain` carries `Content-Length: 5`. -/
theorem feedResponse_spec :
    (∀ (s : HttpServer) (status : Int) (headers text contentType httpDate : List Char),
      ∃ head, (feedResponse s status headers text contentType httpDate).sendBuf =
          s.sendBuf ++ [head, text] ∧
        head ++ text = specResponseBytes s status headers text contentType httpDate) ∧
    (feedResponse initialServer 200 [] (("hello").toList) (("text/plain").toList)
        (("D").toList)).sendBuf =
      [("HTTP/1.1 200 OK\r\nDate: D\r\nContent-Length: 5\r\nExpires: D\r\nCache-Control: no-cache\r\nContent-Type: text/plain\r\n\r\n").toList,
        ("hello").toList] := by
  constructor
  · intro s status headers text contentType httpDate
    exact ⟨specResponseHead s status headers text contentType httpDate,
      feedResponse_shape s status headers text contentType httpDate, rfl⟩
  · decide

/-- C8 (amended): every feedResponse output begins with the status line
`HTTP/1.1 <entry>` and CRLF where `<entry>` is the status table text; every
code of the specification table renders as its decimal code, a space and
its canonical reason phrase, and every other integer code renders as the
empty string, so its status line carries neither a numeric code nor a
phrase. -/
theorem getStatusString_spec :
    (∀ (s : HttpServer) (status : Int) (headers text contentType httpDate : List Char),
      ∃ head, (feedResponse s status headers text contentType httpDate).sendBuf =
          s.sendBuf ++ [head, text] ∧
        (("HTTP/1.1 ").toList ++ getStatusString status ++ ("\r\n").toList) <+: head) ∧
    (∀ p ∈ specStatusTable, getStatusString p.1 = intToChars p.1 ++ ' ' :: p.2) ∧
    (∀ status : Int, status ∉ specStatusTable.map Prod.fst → getStatusString status = []) := by
  refine ⟨?_, by decide, ?_⟩
  · intro s status headers text contentType httpDate
    refine ⟨specResponseHead s status headers text contentType httpDate,
      feedResponse_shape s status headers text contentType httpDate, ?_⟩
    refine ⟨("Date: ").toList ++ httpDate ++ ("\r\n").toList ++
      ("Content-Length: ").toList ++ natToChars text.length ++ ("\r\n").toList ++
      ("Expires: ").toList ++ httpDate ++ ("\r\n").toList ++
      ("Cache-Control: no-cache\r\n").toList ++
      (if !contentType.isEmpty
        then ("Content-Type: ").toList ++ contentType ++ ("\r\n").toList else []) ++
      (if !s.allowOrigin.isEmpty
        then ("Access-Control-Allow-Origin: ").toList ++ s.allowOrigin ++ ("\r\n").toList else []) ++
      (if supportsGZip s then ("Content-Encoding: gzip\r\n").toList else []) ++
      (if !supportsPersistentConnection s then ("Connection: close\r\n").toList else []) ++
      headers ++ ("\r\n").toList, ?_⟩
    simp [specResponseHead, List.append_assoc]
  · intro st hst
    unfold getStatusString
    split <;> first | rfl | exact (hst (by decide)).elim

/-- Witness for the C8 theorem: code 200 is in the table and renders with
its decimal code and reason phrase, while 306 is not and renders empty. -/
theorem getStatusString_spec_witness :
    getStatusString 200 = intToChars 200 ++ ' ' :: ("OK").toList ∧
    getStatusString 306 = [] :=
  ⟨getStatusString_spec.2.1 (200, ("OK").toList) (by decide),
   getStatusString_spec.2.2 306 (by decide)⟩

/-- C9 (amended): authenticate returns true exactly when no username is
configured, or the Authorization value of the last request is non-empty,
its first space-delimited token equals `Basic`, and the base64-decoded
remainder, divided at its first colon, gives exactly the configured
username and password.  For a colon-free username and a non-empty password
this coincides with byte-for-byte equality of the decoded payload with
username, colon, password; with an empty configured password a payload
decoding to the bare username is also accepted.  On states configured with
`alice` and `secret`, exactly the correct Basic header authenticates. -/
theorem authenticate_spec :
    (∀ s : HttpServer, authenticate s = true ↔
      (s.username = [] ∨
        ((s.lastRequestHeader.map (fun h => h.find AUTHORIZATION)).getD [] ≠ [] ∧
          (divide ' ' ((s.lastRequestHeader.map (fun h => h.find AUTHORIZATION)).getD [])).1 =
            BASIC ∧
          divide ':' (base64Decode
              ((divide ' ' ((s.lastRequestHeader.map (fun h => h.find AUTHORIZATION)).getD [])).2)) =
            (s.username, s.password)))) ∧
    authenticate (authServer (("alice").toList) (("secret").toList)
      (("Basic YWxpY2U6c2VjcmV0").toList)) = true ∧
    authenticate (authServer (("alice").toList) (("secret").toList)
      (("Basic YWxpY2U6V1JPTkc=").toList)) = false ∧
    authenticate (authServer (("alice").toList) (("secret").toList)
      (("Bearer YWxpY2U6c2VjcmV0").toList)) = false ∧
    authenticate (setUsernamePassword initialServer (("alice").toList)
      (("secret").toList)) = false := by
  refine ⟨?_, by decide, by decide, by decide, by decide⟩
  intro s
  simp only [authenticate]
  split_ifs with h1 h2 h3
  · simp [eq_nil_of_isEmpty h1]
  · have hu : ¬s.username = [] := fun hh => h1 (by rw [hh]; rfl)
    simp [hu, eq_nil_of_isEmpty h2]
  · have hu : ¬s.username = [] := fun hh => h1 (by rw [hh]; rfl)
    have hv : ¬(s.lastRequestHeader.map (fun h => h.find AUTHORIZATION)).getD [] = [] :=
      fun hh => h2 (by rw [hh]; rfl)
    have hb : (divide ' ' ((s.lastRequestHeader.map (fun h => h.find AUTHORIZATION)).getD [])).1 =
        BASIC := by
      exact beq_iff_eq.mp h3
    simp [hu, hv, hb, Bool.and_eq_true, beq_iff_eq, Prod.ext_iff]
  · have hu : ¬s.username = [] := fun hh => h1 (by rw [hh]; rfl)
    have hb : ¬(divide ' ' ((s.lastRequestHeader.map (fun h => h.find AUTHORIZATION)).getD [])).1 =
        BASIC := fun hh => h3 (beq_iff_eq.mpr hh)
    simp [hu, hb]

end Aria2
